import Mathlib

/-!
Verification of the CAN frame decoding core of `logger.py`
(Pi-CAN-Dynamics).  The Python functions are shallowly embedded:

* byte strings become `List Nat` (each element one byte value);
* Python's unbounded `int` becomes `Nat`/`Int`;
* Python `float` scale/offset/formula arithmetic is modelled exactly
  over `ℚ` (the decoding laws under scrutiny are algebraic identities);
* the builtin `eval` used by `evaluate_safe_expression` is an abstract
  parameter `pe : String → ℚ → Except Unit ℚ`, where `Except.error`
  models a raised exception;
* JSON dictionaries become association lists in document order, and the
  configuration file is modelled as the already-parsed JSON value.
-/

namespace PiCAN

/-- Python `int.from_bytes(data, "little", signed=False)`: the first byte
is least significant. -/
def fromBytesLE : List Nat → Nat
  | [] => 0
  | b :: bs => b + 256 * fromBytesLE bs

/-- `parse_bytes_little_endian` from `logger.py`: if `offset + length`
exceeds the buffer length return 0, else the little-endian value of
`data[offset : offset+length]`. -/
def parse_bytes_little_endian (data : List Nat) (offset length : Nat) : Nat :=
  if offset + length > data.length then 0
  else fromBytesLE ((data.drop offset).take length)

/-- `extract_bits_little_endian` from `logger.py`: whole buffer as one
little-endian integer, shifted right by `start_bit`, masked to
`bit_length` bits. -/
def extract_bits_little_endian (data : List Nat) (start_bit bit_length : Nat) : Nat :=
  (fromBytesLE data >>> start_bit) &&& (2 ^ bit_length - 1)

/-- `evaluate_safe_expression` from `logger.py`, with the Python builtin
`eval` abstracted as the parameter `pe` (its restricted environment is
fixed by the source; an `Except.error` result models a raised exception,
caught by the `try/except` and turned into `None`).  Python's
`if not expression: return None` short-circuit is the empty-string test. -/
def evaluate_safe_expression (pe : String → ℚ → Except Unit ℚ)
    (expression : String) (value : ℚ) : Option ℚ :=
  if expression = "" then none
  else
    match pe expression value with
    | Except.ok v => some v
    | Except.error _ => none

/-- One signal's JSON spec.  `Option` fields model dictionary key
presence (`"start" in signal_spec`, etc.).  Values are already coerced:
`int(...)` for start/length, the bits pair, `float(...)` for scale and
offset (floats modelled exactly over `ℚ`). -/
structure SignalSpec where
  start : Option Nat
  length : Option Nat
  bits : Option (Nat × Nat)
  scale : Option ℚ
  offset : Option ℚ
  formula : Option String
deriving DecidableEq

/-- The raw integer extraction step of the per-signal loop body in
`decode_can_frame`: byte mode when both `start` and `length` keys are
present, else bit mode when `bits` is present, else the signal is
skipped (`continue`). -/
def rawValue (spec : SignalSpec) (data : List Nat) : Option Nat :=
  match spec.start, spec.length with
  | some offset, some length => some (parse_bytes_little_endian data offset length)
  | _, _ =>
    match spec.bits with
    | some (start_bit, bit_len) => some (extract_bits_little_endian data start_bit bit_len)
    | none => none

/-- `raw_val * float(signal_spec.get("scale", 1.0)) +
float(signal_spec.get("offset", 0.0))` from `decode_can_frame`. -/
def scaledValue (spec : SignalSpec) (raw : Nat) : ℚ :=
  (raw : ℚ) * spec.scale.getD 1 + spec.offset.getD 0

/-- The per-signal body of the loop in `decode_can_frame`: extract the
raw value (or skip), scale it, then let a successful formula evaluation
replace the scaled value.  The formula is evaluated on the raw integer. -/
def decodeSignal (pe : String → ℚ → Except Unit ℚ)
    (spec : SignalSpec) (data : List Nat) : Option ℚ :=
  match rawValue spec data with
  | none => none
  | some raw =>
    let value := scaledValue spec raw
    some (match spec.formula with
      | none => value
      | some f =>
        match evaluate_safe_expression pe f (raw : ℚ) with
        | some computed => computed
        | none => value)

/-- The JSON object configured for one CAN identifier.  Only its
`signals` member is consumed (`frame_cfg.get("signals", {})`; a missing
`signals` key is the empty list). -/
structure FrameCfg where
  signals : List (String × SignalSpec)
deriving DecidableEq

/-- A received CAN frame: `frame.arbitration_id` and `frame.data`. -/
structure Frame where
  arbitration_id : Int
  data : List Nat

/-- `decode_can_frame` from `logger.py`: `None` when the identifier is
not configured, otherwise the decoded name-to-value mapping in document
order (signals whose spec has neither extraction mode are skipped). -/
def decode_can_frame (pe : String → ℚ → Except Unit ℚ)
    (frame : Frame) (config : List (Int × FrameCfg)) : Option (List (String × ℚ)) :=
  match List.lookup frame.arbitration_id config with
  | none => none
  | some frame_cfg =>
    some (frame_cfg.signals.filterMap fun p =>
      (decodeSignal pe p.2 frame.data).map fun v => (p.1, v))

/-- A JSON object key as seen by `load_can_config`: JSON keys are
strings, but the source also tolerates native integer keys
(`isinstance(k, str)`). -/
inductive JKey where
  | str (s : String)
  | int (n : Int)
deriving DecidableEq

/-- Configuration load failure.  The source raises `ValueError` out of
`int(...)`; the embedding records which key failed to parse. -/
inductive ConfigError where
  | invalidIdentifier (key : String)
deriving DecidableEq

/-- Value of one hexadecimal digit character, as accepted by
`int(k, 16)`. -/
def hexDigitVal (c : Char) : Option Nat :=
  if ('0' ≤ c ∧ c ≤ '9') then some (c.toNat - '0'.toNat)
  else if ('a' ≤ c ∧ c ≤ 'f') then some (c.toNat - 'a'.toNat + 10)
  else if ('A' ≤ c ∧ c ≤ 'F') then some (c.toNat - 'A'.toNat + 10)
  else none

/-- Value of one decimal digit character, as accepted by `int(k)`. -/
def decDigitVal (c : Char) : Option Nat :=
  if ('0' ≤ c ∧ c ≤ '9') then some (c.toNat - '0'.toNat) else none

/-- Nonempty run of digits in the given base; `none` on a non-digit or
on the empty run (Python `int` rejects both). -/
def parseDigitRun (digitVal : Char → Option Nat) (base : Nat) : List Char → Option Nat
  | [] => none
  | [c] => digitVal c
  | c :: rest => do
    let d ← digitVal c
    let n ← parseDigitRun digitVal base rest
    pure (d * base ^ rest.length + n)

/-- Magnitude part of Python `int(k, 16)` / `int(k)`: base 16 accepts an
optional `0x`/`0X` prefix.  (Whitespace and underscore tolerance of
CPython's parser are not modelled; no claim depends on them.) -/
def parseMagnitude (base16 : Bool) (cs : List Char) : Option Nat :=
  if base16 then
    match cs with
    | '0' :: c :: rest =>
      if c = 'x' ∨ c = 'X' then parseDigitRun hexDigitVal 16 rest
      else parseDigitRun hexDigitVal 16 cs
    | _ => parseDigitRun hexDigitVal 16 cs
  else parseDigitRun decDigitVal 10 cs

/-- Python `int(k, base)` on a string: optional sign then magnitude. -/
def pyIntOfChars (base16 : Bool) (cs : List Char) : Option Int :=
  match cs with
  | '-' :: rest => (parseMagnitude base16 rest).map fun n => -(n : Int)
  | '+' :: rest => (parseMagnitude base16 rest).map fun n => (n : Int)
  | _ => (parseMagnitude base16 cs).map fun n => (n : Int)

/-- `k.lower().startswith("0x")`: lowering only affects the letter, so
this is a first-two-characters test. -/
def lowerStartsWith0x : List Char → Bool
  | c0 :: c1 :: _ => c0 = '0' && (c1 = 'x' || c1 = 'X')
  | _ => false

/-- Key normalization of `load_can_config`:
`int(k, 16) if isinstance(k, str) and k.lower().startswith("0x") else int(k)`. -/
def normalizeKey : JKey → Except ConfigError Int
  | JKey.int n => Except.ok n
  | JKey.str s =>
    match pyIntOfChars (lowerStartsWith0x s.data) s.data with
    | some n => Except.ok n
    | none => Except.error (ConfigError.invalidIdentifier s)

/-- `load_can_config` from `logger.py`, applied to the already-parsed
JSON document (file reading and JSON parsing abstracted away): normalize
every key, keep every value untouched.  A key that fails to parse aborts
the load (the source's uncaught `ValueError` out of the dict
comprehension). -/
def load_can_config : List (JKey × FrameCfg) → Except ConfigError (List (Int × FrameCfg))
  | [] => Except.ok []
  | p :: rest =>
    match normalizeKey p.1 with
    | Except.error e => Except.error e
    | Except.ok n =>
      match load_can_config rest with
      | Except.error e => Except.error e
      | Except.ok tail => Except.ok ((n, p.2) :: tail)

/-- Whether a signal spec would be extracted rather than skipped by
`decode_can_frame` (byte mode or bit mode present). -/
def hasExtractionMode (spec : SignalSpec) : Bool :=
  (spec.start.isSome && spec.length.isSome) || spec.bits.isSome

/-- A pure-failure stand-in for Python `eval`: every evaluation raises. -/
def peFail : String → ℚ → Except Unit ℚ := fun _ _ => Except.error ()

/-- A signal spec with no key at all: neither extraction mode. -/
def emptySpec : SignalSpec := ⟨none, none, none, none, none, none⟩

/-- The `speed` spec of the spec's concrete scenario:
`{"start": 0, "length": 2, "scale": 0.01}`. -/
def speedSpec : SignalSpec := ⟨some 0, some 2, none, some (1 / 100), none, none⟩

/-- A spec that declares both a byte range and a bit range. -/
def bothModesSpec : SignalSpec := ⟨some 0, some 1, some (4, 4), none, none, none⟩

/-- Config carrying a single signal `s` whose spec has no extraction
mode, under identifier `0x100`. -/
def modelessCfg : FrameCfg := ⟨[("s", emptySpec)]⟩

/-- A stand-in for Python `eval` that always returns 99. -/
def peConst99 : String → ℚ → Except Unit ℚ := fun _ _ => Except.ok 99

/-- A byte-range spec carrying scale 5, offset 7 and a formula. -/
def formulaSpec : SignalSpec :=
  ⟨some 0, some 1, none, some 5, some 7, some "max(0, x - 40)"⟩

/-- Identifier-256 config holding only the modeless signal `s`. -/
def cfg256 : List (Int × FrameCfg) := [(256, modelessCfg)]

/-- A frame with identifier 256. -/
def frame256 : Frame := ⟨256, [0]⟩

/-- Config mixing a modeless signal `s` with the decodable `speed`. -/
def mixCfg : FrameCfg := ⟨[("s", emptySpec), ("speed", speedSpec)]⟩

/-- Identifier-257 config holding `mixCfg`. -/
def cfgMix : List (Int × FrameCfg) := [(257, mixCfg)]

/-- A frame with identifier 257. -/
def frameMix : Frame := ⟨257, [0x10, 0x27]⟩

theorem fromBytesLE_eq_sum (l : List Nat) :
    fromBytesLE l = ∑ i ∈ Finset.range l.length, l.getD i 0 * 256 ^ i := by
  induction l with
  | nil => simp [fromBytesLE]
  | cons b bs ih =>
    rw [fromBytesLE, ih, List.length_cons, Finset.sum_range_succ']
    simp only [List.getD_cons_succ, List.getD_cons_zero, pow_zero, mul_one, pow_succ]
    rw [Finset.mul_sum, Nat.add_comm]
    congr 1
    apply Finset.sum_congr rfl
    intro i _
    ring

theorem fromBytesLE_lt (l : List Nat) (hb : ∀ b ∈ l, b < 256) :
    fromBytesLE l < 256 ^ l.length := by
  induction l with
  | nil => simp [fromBytesLE]
  | cons b bs ih =>
    have hb0 : b < 256 := hb b (List.mem_cons_self b bs)
    have ih' : fromBytesLE bs < 256 ^ bs.length :=
      ih (fun x hx => hb x (List.mem_cons_of_mem b hx))
    rw [fromBytesLE, List.length_cons, pow_succ]
    calc b + 256 * fromBytesLE bs
        ≤ 255 + 256 * fromBytesLE bs := by omega
      _ < 256 * (fromBytesLE bs + 1) := by omega
      _ ≤ 256 * 256 ^ bs.length := by
          apply Nat.mul_le_mul_left
          omega
      _ = 256 ^ bs.length * 256 := by ring

/-- C1: `parse_bytes_little_endian` returns the little-endian integer
formed by exactly the bytes `data[offset .. offset+length)` when
`offset + length ≤ len(data)` (the slice it is built from has exactly
`length` elements, so no byte outside that range is read), and returns
0 when `offset + length > len(data)`. -/
theorem C1_extract_bytes (data : List Nat) (offset length : Nat) :
    (offset + length ≤ data.length →
      ((data.drop offset).take length).length = length ∧
      parse_bytes_little_endian data offset length =
        ∑ i ∈ Finset.range length, data.getD (offset + i) 0 * 256 ^ i) ∧
    (data.length < offset + length → parse_bytes_little_endian data offset length = 0) := by
  constructor
  · intro h
    have hl : ((data.drop offset).take length).length = length := by
      simp only [List.length_take, List.length_drop]
      omega
    refine ⟨hl, ?_⟩
    rw [parse_bytes_little_endian, if_neg (by omega), fromBytesLE_eq_sum, hl]
    apply Finset.sum_congr rfl
    intro i hi
    have hi' : i < length := Finset.mem_range.mp hi
    congr 1
    rw [List.getD_eq_getElem?_getD, List.getD_eq_getElem?_getD,
      List.getElem?_take_of_lt hi', List.getElem?_drop]
  · intro h
    rw [parse_bytes_little_endian, if_pos (by omega)]

/-- C1 witness: at `data = [1, 2, 3]`, `offset = 1`, `length = 2` the
hypothesis `1 + 2 ≤ 3` holds and the in-bounds branch applies. -/
theorem C1_extract_bytes_witness :
    ((([1, 2, 3] : List Nat).drop 1).take 2).length = 2 ∧
    parse_bytes_little_endian [1, 2, 3] 1 2 =
      ∑ i ∈ Finset.range 2, ([1, 2, 3] : List Nat).getD (1 + i) 0 * 256 ^ i :=
  (C1_extract_bytes [1, 2, 3] 1 2).1 (by decide)

/-- C2: `extract_bits_little_endian data start len` equals
`(int_from_le_bytes(data) >> start) & ((1 << len) - 1)` — stated
arithmetically as a shift/mask-free division and remainder; a
`bit_length` of 0 yields 0; and every bit of the result that would come
from beyond the buffer's bit width (8 bits per byte) is zero. -/
theorem C2_extract_bits (data : List Nat) (start_bit bit_length : Nat) :
    extract_bits_little_endian data start_bit bit_length =
      fromBytesLE data / 2 ^ start_bit % 2 ^ bit_length ∧
    (bit_length = 0 → extract_bits_little_endian data start_bit bit_length = 0) ∧
    (∀ i, (∀ b ∈ data, b < 256) → 8 * data.length ≤ start_bit + i →
      Nat.testBit (extract_bits_little_endian data start_bit bit_length) i = false) := by
  refine ⟨?_, ?_, ?_⟩
  · rw [extract_bits_little_endian, Nat.and_pow_two_sub_one_eq_mod,
      Nat.shiftRight_eq_div_pow]
  · intro h
    subst h
    simp [extract_bits_little_endian]
  · intro i hb hi
    rw [extract_bits_little_endian, Nat.testBit_and, Nat.testBit_shiftRight]
    have hlt : fromBytesLE data < 2 ^ (start_bit + i) := by
      calc fromBytesLE data < 256 ^ data.length := fromBytesLE_lt data hb
        _ = 2 ^ (8 * data.length) := by
            rw [pow_mul]
            norm_num
        _ ≤ 2 ^ (start_bit + i) := Nat.pow_le_pow_right (by norm_num) hi
    rw [Nat.testBit_lt_two_pow hlt]
    simp

/-- C2 witness: the spec's scenario `[0xAB]`, start 4, length 4 — the
bit span crosses the nibble boundary, equals the shift/mask value, and
its bit 4 (which would come from bit 8 of a 1-byte buffer) is zero. -/
theorem C2_extract_bits_witness :
    extract_bits_little_endian [0xAB] 4 4 = fromBytesLE [0xAB] / 2 ^ 4 % 2 ^ 4 ∧
    Nat.testBit (extract_bits_little_endian [0xAB] 4 4) 4 = false :=
  ⟨(C2_extract_bits [0xAB] 4 4).1,
   (C2_extract_bits [0xAB] 4 4).2.2 4 (by decide) (by decide)⟩

/-- C3: for a signal spec with no formula whose extraction yields raw
value `r`, `decodeSignal` returns exactly `r * scale + offset`, the
scale defaulting to 1 and the offset to 0. -/
theorem C3_scaled_decode (pe : String → ℚ → Except Unit ℚ)
    (spec : SignalSpec) (data : List Nat) (raw : Nat) :
    spec.formula = none → rawValue spec data = some raw →
    decodeSignal pe spec data =
      some ((raw : ℚ) * spec.scale.getD 1 + spec.offset.getD 0) := by
  intro hf hr
  simp [decodeSignal, hr, hf, scaledValue]

/-- C3 witness: the spec's concrete scenario — `speed` with
`start 0, length 2, scale 0.01` on data `[0x10, 0x27, 0, ...]` gives
raw `0x2710 = 10000` and value `100`. -/
theorem C3_scaled_decode_witness :
    decodeSignal peFail speedSpec [0x10, 0x27, 0, 0, 0, 0, 0, 0] = some 100 := by
  have h := C3_scaled_decode peFail speedSpec [0x10, 0x27, 0, 0, 0, 0, 0, 0]
    10000 rfl (by decide)
  rw [h]
  norm_num [speedSpec]

/-- C4: when a formula is present, the evaluator is invoked on the raw
extracted integer; a successful evaluation entirely replaces the scaled
value, and a failed evaluation falls back to `raw * scale + offset`. -/
theorem C4_formula_decode (pe : String → ℚ → Except Unit ℚ)
    (spec : SignalSpec) (data : List Nat) (raw : Nat) (f : String) :
    spec.formula = some f → rawValue spec data = some raw →
    (∀ c, evaluate_safe_expression pe f (raw : ℚ) = some c →
      decodeSignal pe spec data = some c) ∧
    (evaluate_safe_expression pe f (raw : ℚ) = none →
      decodeSignal pe spec data =
        some ((raw : ℚ) * spec.scale.getD 1 + spec.offset.getD 0)) := by
  intro hf hr
  constructor
  · intro c hc
    simp [decodeSignal, hr, hf, hc]
  · intro hc
    simp [decodeSignal, hr, hf, hc, scaledValue]

/-- C4 witness: on `formulaSpec` (scale 5, offset 7) with raw value 30,
an evaluator that returns 99 makes the decoded value 99 (scale and
offset ignored), and an evaluator that raises makes it the scaled
fallback `30 * 5 + 7`. -/
theorem C4_formula_decode_witness :
    decodeSignal peConst99 formulaSpec [30] = some 99 ∧
    decodeSignal peFail formulaSpec [30] =
      some ((30 : ℚ) * formulaSpec.scale.getD 1 + formulaSpec.offset.getD 0) :=
  ⟨(C4_formula_decode peConst99 formulaSpec [30] 30 "max(0, x - 40)"
      rfl (by decide)).1 99 (by decide),
   (C4_formula_decode peFail formulaSpec [30] 30 "max(0, x - 40)"
      rfl (by decide)).2 (by decide)⟩

/-- C6: `evaluate_safe_expression` is total — the empty expression
yields `None` (for every underlying evaluator, so without attempting
evaluation), every raised evaluation error yields `None`, and any value
it does return came from a successful evaluation (no escaping fault). -/
theorem C6_evaluate_never_raises (pe : String → ℚ → Except Unit ℚ)
    (expression : String) (x : ℚ) :
    (expression = "" → evaluate_safe_expression pe expression x = none) ∧
    (pe expression x = Except.error () →
      evaluate_safe_expression pe expression x = none) ∧
    (∀ v, evaluate_safe_expression pe expression x = some v →
      pe expression x = Except.ok v) := by
  refine ⟨?_, ?_, ?_⟩
  · intro h
    simp [evaluate_safe_expression, h]
  · intro h
    by_cases he : expression = "" <;> simp [evaluate_safe_expression, he, h]
  · intro v hv
    by_cases he : expression = ""
    · simp [evaluate_safe_expression, he] at hv
    · rw [evaluate_safe_expression, if_neg he] at hv
      cases hpe : pe expression x with
      | ok w =>
        rw [hpe] at hv
        simp only [Option.some.injEq] at hv
        rw [hv]
      | error e =>
        rw [hpe] at hv
        simp at hv

/-- C6 witness: with an evaluator that always raises, a nonempty
expression yields `None`, and the empty expression yields `None`. -/
theorem C6_evaluate_never_raises_witness :
    evaluate_safe_expression peFail "x / 0" 3 = none ∧
    evaluate_safe_expression peFail "" 3 = none :=
  ⟨(C6_evaluate_never_raises peFail "x / 0" 3).2.1 rfl,
   (C6_evaluate_never_raises peFail "" 3).1 rfl⟩

theorem decodeSignal_isSome (pe : String → ℚ → Except Unit ℚ)
    (spec : SignalSpec) (data : List Nat) :
    (decodeSignal pe spec data).isSome = hasExtractionMode spec := by
  rcases spec with ⟨st, ln, bt, sc, off, fm⟩
  cases st <;> cases ln <;> cases bt <;>
    simp [decodeSignal, rawValue, hasExtractionMode]

theorem decoded_keys_eq (pe : String → ℚ → Except Unit ℚ)
    (data : List Nat) (sigs : List (String × SignalSpec)) :
    (sigs.filterMap fun p =>
        (decodeSignal pe p.2 data).map fun v => (p.1, v)).map Prod.fst =
      (sigs.filter fun p => hasExtractionMode p.2).map Prod.fst := by
  induction sigs with
  | nil => simp
  | cons hd tl ih =>
    have hsome := decodeSignal_isSome pe hd.2 data
    by_cases h : hasExtractionMode hd.2 = true
    · rw [h] at hsome
      obtain ⟨v, hv⟩ := Option.isSome_iff_exists.mp hsome
      simp [List.filterMap_cons, List.filter_cons, h, hv, ih]
    · rw [Bool.not_eq_true] at h
      rw [h] at hsome
      have hnone : decodeSignal pe hd.2 data = none :=
        Option.not_isSome_iff_eq_none.mp (by simp [hsome])
      simp [List.filterMap_cons, List.filter_cons, h, hnone, ih]

/-- C5 counterexample: identifier 256 is configured with the single
declared signal `s`, yet `decode_can_frame` returns a mapping whose
keys are not `["s"]` (the signal is skipped, so the mapping is empty). -/
theorem C5_counterexample :
    ¬ Option.map (List.map Prod.fst) (decode_can_frame peFail frame256 cfg256) =
      some ["s"] := by
  decide

/-- C5 (amended): an unconfigured identifier decodes to absent; a
configured identifier decodes to the mapping that binds exactly the
declared signal names whose spec has an extraction mode (the others are
skipped), each to its per-signal decoded value. -/
theorem C5_decode_frame (pe : String → ℚ → Except Unit ℚ)
    (frame : Frame) (config : List (Int × FrameCfg)) :
    (List.lookup frame.arbitration_id config = none →
      decode_can_frame pe frame config = none) ∧
    (∀ fc, List.lookup frame.arbitration_id config = some fc →
      decode_can_frame pe frame config =
        some (fc.signals.filterMap fun p =>
          (decodeSignal pe p.2 frame.data).map fun v => (p.1, v)) ∧
      (fc.signals.filterMap fun p =>
          (decodeSignal pe p.2 frame.data).map fun v => (p.1, v)).map Prod.fst =
        (fc.signals.filter fun p => hasExtractionMode p.2).map Prod.fst) := by
  constructor
  · intro h
    simp [decode_can_frame, h]
  · intro fc h
    exact ⟨by simp [decode_can_frame, h], decoded_keys_eq pe frame.data fc.signals⟩

/-- C5 witness: identifier 257 carries the modeless `s` and the
decodable `speed`; the decoded mapping binds exactly `speed`. -/
theorem C5_decode_frame_witness :
    decode_can_frame peFail frameMix cfgMix =
      some (mixCfg.signals.filterMap fun p =>
        (decodeSignal peFail p.2 frameMix.data).map fun v => (p.1, v)) ∧
    (mixCfg.signals.filterMap fun p =>
        (decodeSignal peFail p.2 frameMix.data).map fun v => (p.1, v)).map Prod.fst =
      (mixCfg.signals.filter fun p => hasExtractionMode p.2).map Prod.fst :=
  (C5_decode_frame peFail frameMix cfgMix).2 mixCfg rfl

/-- C8 counterexample: a configuration whose only signal declares no
extraction mode loads successfully — `load_can_config` raises no
configuration error for it. -/
theorem C8_counterexample :
    load_can_config [(JKey.str "0x100", modelessCfg)] =
      Except.ok [(256, modelessCfg)] := by
  rfl

/-- C8 (amended): `load_can_config` performs no extraction-mode
validation — any frame config under a parsable key loads successfully,
whatever its signal specs declare — and a signal spec with no extraction
mode is silently skipped at decode time instead. -/
theorem C8_no_load_validation (fc : FrameCfg)
    (pe : String → ℚ → Except Unit ℚ) (spec : SignalSpec) (data : List Nat) :
    load_can_config [(JKey.str "0x100", fc)] = Except.ok [(256, fc)] ∧
    (hasExtractionMode spec = false → decodeSignal pe spec data = none) := by
  constructor
  · have hkey : normalizeKey (JKey.str "0x100") = Except.ok 256 := by rfl
    simp [load_can_config, hkey]
  · intro h
    have hsome := decodeSignal_isSome pe spec data
    rw [h] at hsome
    exact Option.not_isSome_iff_eq_none.mp (by simp [hsome])

/-- C8 witness: the modeless config loads, and its signal decodes to
nothing. -/
theorem C8_no_load_validation_witness :
    load_can_config [(JKey.str "0x100", modelessCfg)] =
      Except.ok [(256, modelessCfg)] ∧
    decodeSignal peFail emptySpec [] = none :=
  ⟨(C8_no_load_validation modelessCfg peFail emptySpec []).1,
   (C8_no_load_validation modelessCfg peFail emptySpec []).2 rfl⟩

/-- C9: key normalization — `"0x7FF"` parses to 2047 (base 16), `"100"`
to 100 (base 10), a native integer passes through; a string with the
hexadecimal prefix marker goes through base-16 parsing and any other
string through base-10; a key that parses in neither way makes the whole
load fail with an invalid-identifier error. -/
theorem C9_identifier_normalization (s : String) (n : Int) (v : FrameCfg)
    (rest : List (JKey × FrameCfg)) (e : ConfigError) :
    normalizeKey (JKey.str "0x7FF") = Except.ok 2047 ∧
    normalizeKey (JKey.str "100") = Except.ok 100 ∧
    normalizeKey (JKey.int n) = Except.ok n ∧
    (lowerStartsWith0x s.data = true →
      normalizeKey (JKey.str s) =
        match pyIntOfChars true s.data with
        | some m => Except.ok m
        | none => Except.error (ConfigError.invalidIdentifier s)) ∧
    (lowerStartsWith0x s.data = false →
      normalizeKey (JKey.str s) =
        match pyIntOfChars false s.data with
        | some m => Except.ok m
        | none => Except.error (ConfigError.invalidIdentifier s)) ∧
    (normalizeKey (JKey.str s) = Except.error e →
      load_can_config ((JKey.str s, v) :: rest) = Except.error e) := by
  refine ⟨by rfl, by rfl, rfl, ?_, ?_, ?_⟩
  · intro h
    rw [normalizeKey, h]
  · intro h
    rw [normalizeKey, h]
  · intro h
    simp [load_can_config, h]

/-- C9 witness: the unparsable key `"zz"` aborts the load with an
invalid-identifier error. -/
theorem C9_identifier_normalization_witness :
    load_can_config [(JKey.str "zz", modelessCfg)] =
      Except.error (ConfigError.invalidIdentifier "zz") :=
  (C9_identifier_normalization "zz" 0 modelessCfg []
    (ConfigError.invalidIdentifier "zz")).2.2.2.2.2 (by rfl)

/-- C10: a spec declaring both a byte range and a bit range is decoded
through the byte-range extraction (the bit range is ignored); and for a
configured identifier `decode_can_frame` always returns a mapping —
absence happens exactly for unconfigured identifiers. -/
theorem C10_both_modes_byte_wins (pe : String → ℚ → Except Unit ℚ)
    (frame : Frame) (config : List (Int × FrameCfg))
    (spec : SignalSpec) (data : List Nat) :
    (∀ offset length b, spec.start = some offset → spec.length = some length →
      spec.bits = some b →
      rawValue spec data = some (parse_bytes_little_endian data offset length)) ∧
    (∀ fc, List.lookup frame.arbitration_id config = some fc →
      (decode_can_frame pe frame config).isSome = true) ∧
    (List.lookup frame.arbitration_id config = none →
      decode_can_frame pe frame config = none) := by
  refine ⟨?_, ?_, ?_⟩
  · intro offset length b hs hl _
    simp [rawValue, hs, hl]
  · intro fc h
    simp [decode_can_frame, h]
  · intro h
    simp [decode_can_frame, h]

/-- C10 witness: `bothModesSpec` (bytes 0–1 and bits `[4, 4]`) on
`[0xAB]` extracts the whole byte, not the upper nibble, and the
configured identifier 256 decodes to a present (possibly empty)
mapping. -/
theorem C10_both_modes_byte_wins_witness :
    rawValue bothModesSpec [0xAB] = some (parse_bytes_little_endian [0xAB] 0 1) ∧
    (decode_can_frame peFail frame256 cfg256).isSome = true :=
  ⟨(C10_both_modes_byte_wins peFail frame256 cfg256 bothModesSpec [0xAB]).1
      0 1 (4, 4) rfl rfl rfl,
   (C10_both_modes_byte_wins peFail frame256 cfg256 bothModesSpec [0xAB]).2.1
      modelessCfg rfl⟩

end PiCAN
